import Mathlib

set_option maxRecDepth 1000000
set_option maxHeartbeats 1600000

/-!
Verification development for the go-tdms repository: a shallow embedding of
the TDMS segment parser, metadata reducer, chunk catalog and streaming reader,
together with theorems settling the specification claims.

Modelling conventions used throughout:

* Go byte slices are modelled as `List Nat` with each element in `0..255`;
  freshly allocated Go buffers are zero-initialised, so short reads leave
  trailing zeros, which the model reproduces by padding with `0`.
* Go `uint64`/`int64` arithmetic is modelled on `Nat`/`Int` with explicit
  wrap-around (`% 2^64`, two's-complement reinterpretation) at the points
  where the Go code can overflow.
* Go maps are modelled as insertion-ordered association lists; map iteration
  in the source (whose order Go randomises) is modelled as iteration in
  insertion order.  None of the claims depends on a particular map order.
* Go runtime panics (nil dereference, index out of range, integer division
  by zero) are modelled as explicit `GoErr.panic` error values so that the
  behaviour of the code on inputs that make it panic stays observable.
* Heap sharing of `*objectIndex` pointers is modelled with an explicit store
  (`List ObjectIndex`) indexed by `Nat` pointers, because the source mutates
  these records through shared pointers across segments.
* Loops whose termination is not structural are given a fuel argument; the
  wrappers supply fuel that is ample for every input exercised, and the
  universally quantified theorems hold for every fuel value.
-/

namespace GoTdms

/-- Byte strings: Go `[]byte`, one `Nat` in `0..255` per byte. -/
abbrev Bytes := List Nat

/-- Reads byte `i` of a buffer; Go buffers are zero-initialised and all
call sites in the source stay within the allocated buffer, so the default
`0` is only ever the fresh-buffer content, not an out-of-range fabrication. -/
def byteAt (bs : Bytes) (i : Nat) : Nat := bs.getD i 0

/-- The byte order of a segment (`binary.LittleEndian` / `binary.BigEndian`). -/
inductive ByteOrder where
  | little
  | big
deriving DecidableEq, Repr

/-- Go `order.Uint16`: first two bytes of the slice. -/
def ByteOrder.uint16 : ByteOrder → Bytes → Nat
  | .little, bs => byteAt bs 0 + 256 * byteAt bs 1
  | .big, bs => byteAt bs 1 + 256 * byteAt bs 0

/-- Go `order.Uint32`: first four bytes of the slice. -/
def ByteOrder.uint32 : ByteOrder → Bytes → Nat
  | .little, bs =>
      byteAt bs 0 + 256 * (byteAt bs 1 + 256 * (byteAt bs 2 + 256 * byteAt bs 3))
  | .big, bs =>
      byteAt bs 3 + 256 * (byteAt bs 2 + 256 * (byteAt bs 1 + 256 * byteAt bs 0))

/-- Go `order.Uint64`: first eight bytes of the slice. -/
def ByteOrder.uint64 : ByteOrder → Bytes → Nat
  | .little, bs =>
      byteAt bs 0 + 256 * (byteAt bs 1 + 256 * (byteAt bs 2 + 256 * (byteAt bs 3 +
        256 * (byteAt bs 4 + 256 * (byteAt bs 5 + 256 * (byteAt bs 6 + 256 * byteAt bs 7))))))
  | .big, bs =>
      byteAt bs 7 + 256 * (byteAt bs 6 + 256 * (byteAt bs 5 + 256 * (byteAt bs 4 +
        256 * (byteAt bs 3 + 256 * (byteAt bs 2 + 256 * (byteAt bs 1 + 256 * byteAt bs 0))))))

/-- Two's-complement reading of an 8-bit value (Go `int8(b)`). -/
def toInt8 (u : Nat) : Int := if u < 2 ^ 7 then (u : Int) else (u : Int) - 2 ^ 8

/-- Two's-complement reading of a 16-bit value (Go `int16(u)`). -/
def toInt16 (u : Nat) : Int := if u < 2 ^ 15 then (u : Int) else (u : Int) - 2 ^ 16

/-- Two's-complement reading of a 32-bit value (Go `int32(u)`). -/
def toInt32 (u : Nat) : Int := if u < 2 ^ 31 then (u : Int) else (u : Int) - 2 ^ 32

/-- Two's-complement reading of a 64-bit value (Go `int64(u)`). -/
def toInt64 (u : Nat) : Int := if u < 2 ^ 63 then (u : Int) else (u : Int) - 2 ^ 64

/-- Go `uint64` subtraction with wrap-around. -/
def subU64 (a b : Nat) : Nat := (a % 2 ^ 64 + 2 ^ 64 - b % 2 ^ 64) % 2 ^ 64

/-- Go `uint64(i)` conversion from `int64` (two's-complement reinterpretation). -/
def uint64OfInt (i : Int) : Nat := (i % 2 ^ 64).toNat

/-- Kinds of Go runtime panic reachable in the modelled code. -/
inductive PanicKind where
  | divideByZero
  | nilPointerDereference
  | indexOutOfRange
deriving DecidableEq, Repr

/-- Error values of the reader.  The named constructors correspond to the
sentinel errors of `errors.go`; `plainError` is a bare `errors.New` (or a
`fmt.Errorf` without a sentinel) that `errors.Is` does not match against any
sentinel; `eof`/`unexpectedEof` are `io.EOF` / `io.ErrUnexpectedEOF`;
`panic` is a Go runtime panic; `outOfFuel` is the model artefact for loops
given insufficient fuel (never produced in any evaluation below). -/
inductive GoErr where
  | readFailed
  | invalidFileFormat
  | unsupportedVersion
  | unsupportedType
  | invalidPath
  | eof
  | unexpectedEof
  | plainError (msg : String)
  | panic (k : PanicKind)
  | outOfFuel
deriving DecidableEq, Repr

/-! ## Path parser (`read_utils.go`, `parsePath`)

The Go function walks the byte string with an index `i`, reading `path[i]`
(which panics when `i` runs off the end) and a lookahead `nextChar` that is
the byte `0` when `i+1 == len(path)`; Go strings are byte strings, and the
model walks the byte list directly.  An actual NUL byte in the path is
conflated with end-of-string exactly as in the source. -/

/-- The single-quote byte. -/
def quoteByte : Nat := 39

/-- The forward-slash byte. -/
def slashByte : Nat := 47

/-- Inner loop of `parsePath`: captures one quoted component.  Returns the
component together with the bytes after the closing quote (the source
breaks with `i` at the closing quote; the caller then advances `i` by one).
Running off the end of the string is the source's `path[i]` panic.  The
fuel argument only bounds the recursion; `parsePath` supplies enough for
any input. -/
def parseComponent : Nat → Bytes → Bytes → Except GoErr (Bytes × Bytes)
  | _, [], _ => .error (.panic .indexOutOfRange)
  | fuel, c :: rest, comp =>
    let nextChar := rest.headD 0
    if c = quoteByte then
      if nextChar = quoteByte then
        -- escaped quote: skip forward another char; the quote itself is
        -- then written to the component and the index advances past it
        match fuel with
        | 0 => .error .outOfFuel
        | fuel + 1 => parseComponent fuel (rest.drop 1) (comp ++ [quoteByte])
      else
        .ok (comp, rest)
    else
      match fuel with
      | 0 => .error .outOfFuel
      | fuel + 1 => parseComponent fuel rest (comp ++ [c])

/-- Outer loop of `parsePath`: consumes `/\'NAME\'` groups, accumulating
the components.  The byte-list argument is the remainder of the path from
the current index. -/
def parsePathLoop : Nat → Bytes → List Bytes → Except GoErr (List Bytes)
  | _, [], _ => .error (.panic .indexOutOfRange)
  | fuel, c :: rest, acc =>
    let nextChar := rest.headD 0
    if c ≠ slashByte then
      .error .invalidPath
    else if nextChar = 0 then
      -- root level path with no group or channel components
      .ok acc
    else if nextChar ≠ quoteByte then
      .error .invalidPath
    else
      -- skip over the / and the \' (i += 2)
      match parseComponent fuel (rest.drop 1) [] with
      | .error e => .error e
      | .ok (comp, after) =>
        -- i += 1 past the closing quote; break the outer loop at end of input
        if after.isEmpty then
          .ok (acc ++ [comp])
        else
          match fuel with
          | 0 => .error .outOfFuel
          | fuel + 1 => parsePathLoop fuel after (acc ++ [comp])

/-- Go `parsePath` (`read_utils.go`): parses an object path byte string
into `(group name, channel name)`, either of which may be empty. -/
def parsePath (path : Bytes) : Except GoErr (Bytes × Bytes) :=
  match parsePathLoop (path.length + 2) path [] with
  | .error e => .error e
  | .ok components =>
    let groupName := components.getD 0 []
    let channelName := components.getD 1 []
    .ok (groupName, channelName)

/-! ## Data-type registry (`data_types.go`) -/

/-- TDMS wire type codes (`DataType` in `data_types.go`), kept as their
numeric values. -/
def DataTypeVoid : Nat := 0
def DataTypeInt8 : Nat := 1
def DataTypeInt16 : Nat := 2
def DataTypeInt32 : Nat := 3
def DataTypeInt64 : Nat := 4
def DataTypeUint8 : Nat := 5
def DataTypeUint16 : Nat := 6
def DataTypeUint32 : Nat := 7
def DataTypeUint64 : Nat := 8
def DataTypeFloat32 : Nat := 9
def DataTypeFloat64 : Nat := 10
def DataTypeFloat128 : Nat := 11
def DataTypeFloat32WithUnit : Nat := 0x19
def DataTypeFloat64WithUnit : Nat := 0x1A
def DataTypeFloat128WithUnit : Nat := 0x1B
def DataTypeString : Nat := 0x20
def DataTypeBool : Nat := 0x21
def DataTypeTimestamp : Nat := 0x44
def DataTypeFixedPoint : Nat := 0x4F
def DataTypeComplex64 : Nat := 0x08000c
def DataTypeComplex128 : Nat := 0x10000d
def DataTypeDAQmxRawData : Nat := 0xFFFFFFFF

/-- Go `DataType.Size` (`data_types.go`): byte width of one value of the
type, `0` for variable-length and unknown types. -/
def dataTypeSize (dt : Nat) : Nat :=
  if dt = DataTypeVoid ∨ dt = DataTypeString then 0
  else if dt = DataTypeInt8 ∨ dt = DataTypeUint8 ∨ dt = DataTypeBool then 1
  else if dt = DataTypeInt16 ∨ dt = DataTypeUint16 then 2
  else if dt = DataTypeInt32 ∨ dt = DataTypeUint32 ∨ dt = DataTypeFloat32 then 4
  else if dt = DataTypeInt64 ∨ dt = DataTypeUint64 ∨ dt = DataTypeFloat64 ∨
          dt = DataTypeComplex64 then 8
  else if dt = DataTypeFloat128 ∨ dt = DataTypeComplex128 ∨ dt = DataTypeTimestamp then 16
  else 0

/-! ## Primitive decoders (`read_utils.go`, interpret functions)

Floating-point values are carried as their IEEE bit patterns (the Go code's
`math.Float32frombits`/`Float64frombits` are bijections on bit patterns, so
nothing is lost by keeping the bits). -/

def interpretInt8 (bs : Bytes) (_ : ByteOrder) : Int := toInt8 (byteAt bs 0)

def interpretInt16 (bs : Bytes) (o : ByteOrder) : Int := toInt16 (o.uint16 bs)

def interpretInt32 (bs : Bytes) (o : ByteOrder) : Int := toInt32 (o.uint32 bs)

def interpretInt64 (bs : Bytes) (o : ByteOrder) : Int := toInt64 (o.uint64 bs)

def interpretUint8 (bs : Bytes) (_ : ByteOrder) : Nat := byteAt bs 0

def interpretUint16 (bs : Bytes) (o : ByteOrder) : Nat := o.uint16 bs

def interpretUint32 (bs : Bytes) (o : ByteOrder) : Nat := o.uint32 bs

def interpretUint64 (bs : Bytes) (o : ByteOrder) : Nat := o.uint64 bs

def interpretFloat32 (bs : Bytes) (o : ByteOrder) : Nat := o.uint32 bs

def interpretFloat64 (bs : Bytes) (o : ByteOrder) : Nat := o.uint64 bs

/-- Go `interpretFloat128` (`read_utils.go`): the sixteen bytes are stored
little-endian, reversing big-endian input. -/
def interpretFloat128 (bs : Bytes) (o : ByteOrder) : Bytes :=
  match o with
  | .big => bs.reverse
  | .little => bs

/-- Go `interpretString`: `string(bytes)` copies the bytes. -/
def interpretString (bs : Bytes) (_ : ByteOrder) : Bytes := bs

def interpretBool (bs : Bytes) (_ : ByteOrder) : Bool := byteAt bs 0 ≠ 0

/-- Go `interpretTimestamp`: seconds since the TDMS epoch and the 2⁻⁶⁴ s
fraction. -/
def interpretTimestamp (bs : Bytes) (o : ByteOrder) : Int × Nat :=
  (toInt64 (o.uint64 bs), o.uint64 (bs.drop 8))

def interpretComplex64 (bs : Bytes) (o : ByteOrder) : Nat × Nat :=
  (o.uint32 bs, o.uint32 (bs.drop 4))

def interpretComplex128 (bs : Bytes) (o : ByteOrder) : Nat × Nat :=
  (o.uint64 bs, o.uint64 (bs.drop 8))

/-! ## Quad-precision decoder (`data_types.go`, `Float128.AsBigFloat`)

`big.Float` at precision 113 computes the mantissa quotients, the leading-one
addition and the power-of-two scalings below exactly for every value whose
significand fits in 113 bits, which covers all inputs considered in the
claims; the model therefore computes in `ℚ`.  The Go function returns `nil`
for NaN (modelled as `none`) and `±Inf` via `SetInf`. -/

/-- Result of `Float128.AsBigFloat`: a finite arbitrary-precision value or an
infinity.  (`none` at the `Option` level stands for the `nil` NaN result.) -/
inductive BigFloatVal where
  | finite (q : ℚ)
  | posInf
  | negInf
deriving DecidableEq, Repr

/-- Go `isZeroMantissa`. -/
def isZeroMantissa (m : Bytes) : Bool := m.all (· = 0)

/-- Go `mantissaToBigInt`: folds the bytes most-significant first. -/
def mantissaToBigInt (m : Bytes) : Nat := m.foldl (fun acc b => acc * 256 + b) 0

/-- Go `Float128.AsBigFloat` (`data_types.go`): sign from bit 7 of byte 0,
exponent from bytes 0–1, mantissa from bytes 2–15 (i.e. the array is read
as if it were big-endian). -/
def asBigFloat (f : Bytes) : Option BigFloatVal :=
  let sign := byteAt f 0 / 128
  let exponent := (byteAt f 0 % 128) * 256 + byteAt f 1
  let mantissaBits := (f.drop 2).take 14 ++ List.replicate (14 - (f.drop 2).length) 0
  if exponent = 0x7FFF then
    if isZeroMantissa mantissaBits then
      if sign = 1 then some .negInf else some .posInf
    else
      -- big.Float cannot handle NaN values
      none
  else if exponent = 0 then
    if isZeroMantissa mantissaBits then
      some (.finite 0)
    else
      -- subnormal: (mantissa / 2^112) * 2^(-16382), signed
      let mantissaValue : ℚ := (mantissaToBigInt mantissaBits : ℚ) / (2 ^ 112 : ℚ)
      let value := mantissaValue * ((2 ^ 16382 : ℚ))⁻¹
      some (.finite (if sign = 1 then -value else value))
  else
    -- normal: (1 + mantissa / 2^112) * 2^(exponent - 16383), signed
    let exponentValue : Int := (exponent : Int) - 16383
    let mantissaValue : ℚ := (mantissaToBigInt mantissaBits : ℚ) / (2 ^ 112 : ℚ)
    let value := (1 + mantissaValue) * (2 : ℚ) ^ exponentValue
    some (.finite (if sign = 1 then -value else value))

/-! ## Go value helpers: wrapping arithmetic and maps -/

/-- Go `uint64` addition with wrap-around. -/
def addU64 (a b : Nat) : Nat := (a + b) % 2 ^ 64

/-- Wraps an integer into `int64` range (two's complement). -/
def wrapI64 (i : Int) : Int := toInt64 (uint64OfInt i)

/-- Lookup in a Go map modelled as an association list. -/
def mapGet? {α : Type} (m : List (Bytes × α)) (k : Bytes) : Option α :=
  (m.find? (fun p => p.1 = k)).map (·.2)

/-- Insert/overwrite in a Go map modelled as an insertion-ordered
association list. -/
def mapInsert {α : Type} (m : List (Bytes × α)) (k : Bytes) (v : α) :
    List (Bytes × α) :=
  if (m.find? (fun p => p.1 = k)).isSome then
    m.map (fun p => if p.1 = k then (k, v) else p)
  else
    m ++ [(k, v)]

/-- Go `maps.Copy dst src`: every entry of `src` inserted into `dst`. -/
def mapsCopy {α : Type} (dst src : List (Bytes × α)) : List (Bytes × α) :=
  src.foldl (fun d p => mapInsert d p.1 p.2) dst

/-! ## Data model (`tdms.go` structures) -/

/-- A decoded property value (`Property.Value`, Go `any`).  Floats are kept
as bit patterns, timestamps as (seconds, fraction). -/
inductive PropValue where
  | void
  | i8 (v : Int)
  | i16 (v : Int)
  | i32 (v : Int)
  | i64 (v : Int)
  | u8 (v : Nat)
  | u16 (v : Nat)
  | u32 (v : Nat)
  | u64 (v : Nat)
  | f32 (bits : Nat)
  | f64 (bits : Nat)
  | f128 (bytes : Bytes)
  | str (s : Bytes)
  | boolean (b : Bool)
  | timestamp (seconds : Int) (fraction : Nat)
  | c64 (re im : Nat)
  | c128 (re im : Nat)
deriving DecidableEq, Repr

/-- Go `Property`. -/
structure Property where
  name : Bytes
  typeCode : Nat
  value : PropValue
deriving DecidableEq, Repr

/-- Go `daqmxScaler`. -/
structure DaqmxScaler where
  dataType : Nat
  rawBufferIndex : Nat
  rawByteOffsetWithinStride : Nat
  sampleFormatBitmap : Nat
  scaleID : Nat
deriving DecidableEq, Repr, Inhabited

/-- Go `objectIndex`.  `scalerType` is `0` none, `1` format-changing,
`2` digital-line.  The record lives in an explicit store because the source
shares `*objectIndex` pointers across segments and mutates `offset` and
`stride` through them. -/
structure ObjectIndex where
  scalerType : Nat
  dataType : Nat
  numValues : Nat
  totalSize : Nat
  scalers : List DaqmxScaler
  widths : List Nat
  offset : Int
  stride : Int
deriving DecidableEq, Repr

instance : Inhabited ObjectIndex := ⟨⟨0, 0, 0, 0, [], [], 0, 0⟩⟩

/-- Go `object`: `index` is an optional pointer (store position) to an
`ObjectIndex`; `none` is the `nil` pointer. -/
structure Obj where
  path : Bytes
  index : Option Nat
  properties : List (Bytes × Property)
deriving DecidableEq, Repr

/-- Go `leadIn` (28 bytes parsed). -/
structure LeadIn where
  containsMetadata : Bool
  containsRawData : Bool
  containsDAQMXRawData : Bool
  isInterleaved : Bool
  byteOrder : ByteOrder
  newObjectList : Bool
  nextSegmentOffset : Nat
  rawDataOffset : Nat
deriving DecidableEq, Repr

/-- Go `metadata`. -/
structure Metadata where
  objects : List (Bytes × Obj)
  objectOrder : List Bytes
  numChunks : Nat
  chunkSize : Nat
deriving DecidableEq, Repr

/-- Go `segment`. -/
structure Segment where
  offset : Int
  leadIn : LeadIn
  metadata : Metadata
deriving DecidableEq, Repr

/-- Go `dataChunk`: one raw-data chunk of one channel, precomputed. -/
structure DataChunk where
  offset : Int
  isInterleaved : Bool
  order : ByteOrder
  size : Nat
  numValues : Nat
  stride : Int
deriving DecidableEq, Repr

/-- Go `Channel` (the fields the reader uses). -/
structure Channel where
  name : Bytes
  groupName : Bytes
  dataType : Nat
  properties : List (Bytes × Property)
  dataChunks : List DataChunk
  totalNumValues : Nat
deriving DecidableEq, Repr

instance : Inhabited Channel := ⟨⟨[], [], 0, [], [], 0⟩⟩

/-- Go `Group`. -/
structure Group where
  name : Bytes
  channels : List (Bytes × Channel)
  properties : List (Bytes × Property)
deriving DecidableEq, Repr

instance : Inhabited Group := ⟨⟨[], [], []⟩⟩

/-- Go `File` after `New` (the fields the reader uses afterwards; the byte
source content and declared size are retained for the streaming reader). -/
structure File where
  groups : List (Bytes × Group)
  properties : List (Bytes × Property)
  isIncomplete : Bool
  data : Bytes
  size : Int
deriving DecidableEq, Repr

instance : Inhabited File := ⟨⟨[], [], false, [], 0⟩⟩

/-- Go `Channel.NumValues` (`channel.go`). -/
def Channel.NumValues (ch : Channel) : Nat := ch.totalNumValues

/-! ## The seekable byte source

`Reader` models the `io.ReadSeeker`: the byte content plus a position.
`read` models a single `Read` call on an `os.File`/`bytes.Reader`: at or
past the end it returns `io.EOF`; otherwise it returns up to `n` bytes
without error (a fresh zeroed destination buffer keeps zeros past the bytes
delivered).  `readFull` models `io.ReadFull`. -/

structure Reader where
  data : Bytes
  pos : Nat
deriving DecidableEq, Repr

/-- One `Read(buf)` call with `n = len(buf)`: delivered bytes (padded with
the zeros of the fresh buffer), count delivered, error. -/
def Reader.read (r : Reader) (n : Nat) : (Bytes × Nat × Option GoErr) × Reader :=
  let avail := r.data.length - r.pos
  if avail = 0 ∧ 0 < n then
    ((List.replicate n 0, 0, some .eof), r)
  else
    let k := min n avail
    let chunk := (r.data.drop r.pos).take n
    ((chunk ++ List.replicate (n - k) 0, k, none), { r with pos := r.pos + k })

/-- `io.ReadFull(r, buf)` with `n = len(buf)`: full read, or
`io.ErrUnexpectedEOF` after a partial read, or `io.EOF` when no byte could
be read. -/
def Reader.readFull (r : Reader) (n : Nat) : (Bytes × Nat × Option GoErr) × Reader :=
  if n = 0 then (([], 0, none), r)
  else
    let avail := r.data.length - r.pos
    if avail = 0 then ((List.replicate n 0, 0, some .eof), r)
    else if avail < n then
      (((r.data.drop r.pos).take n ++ List.replicate (n - avail) 0, avail,
        some .unexpectedEof), { r with pos := r.pos + avail })
    else (((r.data.drop r.pos).take n, n, none), { r with pos := r.pos + n })

/-- `Seek(off, io.SeekStart)`; a negative target position is an error. -/
def Reader.seekTo (r : Reader) (off : Int) : Except GoErr Reader :=
  if off < 0 then .error (.plainError "seek: negative position")
  else .ok { r with pos := off.toNat }

/-- `Seek(delta, io.SeekCurrent)`. -/
def Reader.seekCur (r : Reader) (delta : Int) : Except GoErr Reader :=
  Reader.seekTo r ((r.pos : Int) + delta)

/-! ## Scalar reads from the byte source (`utils.go` / `read_utils.go`) -/

/-- Reads `n` bytes as the `readXxx` helpers do: any `Read` error becomes
`errors.Join(ErrReadFailed, err)`, modelled as `readFailed`. -/
def readBytes (r : Reader) (n : Nat) : Except GoErr (Bytes × Reader) :=
  let ((bs, _, err), r') := r.read n
  match err with
  | some _ => .error .readFailed
  | none => .ok (bs, r')

/-- Go `readUint32`. -/
def readUint32 (r : Reader) (order : ByteOrder) : Except GoErr (Nat × Reader) := do
  let (bs, r') ← readBytes r 4
  .ok (order.uint32 bs, r')

/-- Go `readUint64`. -/
def readUint64 (r : Reader) (order : ByteOrder) : Except GoErr (Nat × Reader) := do
  let (bs, r') ← readBytes r 8
  .ok (order.uint64 bs, r')

/-- Go `readString`: 32-bit length prefix then that many UTF-8 bytes. -/
def readString (r : Reader) (order : ByteOrder) : Except GoErr (Bytes × Reader) := do
  let (length, r') ← readUint32 r order
  let (bs, r'') ← readBytes r' length
  .ok (bs, r'')

/-- Go `readValue` (`data_types.go`): decodes one property value of the
given wire type, consuming its bytes; unknown wire codes (including
FixedPoint and DAQmx) are `ErrUnsupportedType`. -/
def readValue (typeCode : Nat) (r : Reader) (order : ByteOrder) :
    Except GoErr (PropValue × Reader) :=
  if typeCode = DataTypeVoid then .ok (.void, r)
  else if typeCode = DataTypeInt8 then do
    let (bs, r') ← readBytes r 1
    .ok (.i8 (interpretInt8 bs order), r')
  else if typeCode = DataTypeInt16 then do
    let (bs, r') ← readBytes r 2
    .ok (.i16 (interpretInt16 bs order), r')
  else if typeCode = DataTypeInt32 then do
    let (bs, r') ← readBytes r 4
    .ok (.i32 (interpretInt32 bs order), r')
  else if typeCode = DataTypeInt64 then do
    let (bs, r') ← readBytes r 8
    .ok (.i64 (interpretInt64 bs order), r')
  else if typeCode = DataTypeUint8 then do
    let (bs, r') ← readBytes r 1
    .ok (.u8 (interpretUint8 bs order), r')
  else if typeCode = DataTypeUint16 then do
    let (bs, r') ← readBytes r 2
    .ok (.u16 (interpretUint16 bs order), r')
  else if typeCode = DataTypeUint32 then do
    let (bs, r') ← readBytes r 4
    .ok (.u32 (interpretUint32 bs order), r')
  else if typeCode = DataTypeUint64 then do
    let (bs, r') ← readBytes r 8
    .ok (.u64 (interpretUint64 bs order), r')
  else if typeCode = DataTypeFloat32 ∨ typeCode = DataTypeFloat32WithUnit then do
    let (bs, r') ← readBytes r 4
    .ok (.f32 (interpretFloat32 bs order), r')
  else if typeCode = DataTypeFloat64 ∨ typeCode = DataTypeFloat64WithUnit then do
    let (bs, r') ← readBytes r 8
    .ok (.f64 (interpretFloat64 bs order), r')
  else if typeCode = DataTypeFloat128 ∨ typeCode = DataTypeFloat128WithUnit then do
    let (bs, r') ← readBytes r 16
    .ok (.f128 (interpretFloat128 bs order), r')
  else if typeCode = DataTypeString then do
    let (s, r') ← readString r order
    .ok (.str s, r')
  else if typeCode = DataTypeBool then do
    let (bs, r') ← readBytes r 1
    .ok (.boolean (interpretBool bs order), r')
  else if typeCode = DataTypeTimestamp then do
    let (bs, r') ← readBytes r 16
    let t := interpretTimestamp bs order
    .ok (.timestamp t.1 t.2, r')
  else if typeCode = DataTypeComplex64 then do
    let (bs, r') ← readBytes r 8
    let c := interpretComplex64 bs order
    .ok (.c64 c.1 c.2, r')
  else if typeCode = DataTypeComplex128 then do
    let (bs, r') ← readBytes r 16
    let c := interpretComplex128 bs order
    .ok (.c128 c.1 c.2, r')
  else .error .unsupportedType

/-! ## Segment lead-in parser (`tdms.go`, `readSegmentLeadIn`) -/

/-- Magic bytes `"TDSm"` of a data file. -/
def tdmsMagicBytes : Bytes := [84, 68, 83, 109]

/-- Magic bytes `"TDSh"` of an index file. -/
def tdmsIndexMagicBytes : Bytes := [84, 68, 83, 104]

def leadInSize : Nat := 28

def scalerSize : Nat := 16

/-- The `next_segment_offset` sentinel of an incomplete final segment. -/
def segmentIncomplete : Nat := 2 ^ 64 - 1

def rawIndexHeaderMatchesPreviousValue : Nat := 0x00000000
def rawIndexHeaderNoRawData : Nat := 0xffffffff
def rawIndexHeaderFormatChangingScaler : Nat := 0x00001269
def rawIndexHeaderDigitalLineScaler : Nat := 0x0000126a

/-- The part of `readSegmentLeadIn` after the magic check. -/
def readSegmentLeadInTail (leadInBytes : Bytes) (r : Reader) :
    Except GoErr (LeadIn × Reader) :=
  -- TOC bitmask is always little endian
  let tocMask := ByteOrder.little.uint32 (leadInBytes.drop 4)
  let byteOrder := if Nat.land tocMask (2 ^ 6) ≠ 0 then ByteOrder.big else ByteOrder.little
  let version := byteOrder.uint32 (leadInBytes.drop 8)
  if version ≠ 4712 ∧ version ≠ 4713 then .error .unsupportedVersion
  else
    .ok ({ containsMetadata := Nat.land tocMask (2 ^ 1) ≠ 0
           containsRawData := Nat.land tocMask (2 ^ 3) ≠ 0
           containsDAQMXRawData := Nat.land tocMask (2 ^ 7) ≠ 0
           isInterleaved := Nat.land tocMask (2 ^ 5) ≠ 0
           byteOrder := byteOrder
           newObjectList := Nat.land tocMask (2 ^ 2) ≠ 0
           nextSegmentOffset := byteOrder.uint64 (leadInBytes.drop 12)
           rawDataOffset := byteOrder.uint64 (leadInBytes.drop 20) }, r)

/-- Go `readSegmentLeadIn`: consumes 28 bytes, validates the magic, decodes
the little-endian TOC bitmask, checks the version and reads the two
offsets in the byte order announced by the TOC. -/
def readSegmentLeadIn (isIndex : Bool) (r : Reader) : Except GoErr (LeadIn × Reader) :=
  let ((leadInBytes, _, rerr), r) := r.read leadInSize
  match rerr with
  | some _ => .error .readFailed
  | none =>
    let magicBytes := leadInBytes.take 4
    if isIndex then
      if magicBytes ≠ tdmsIndexMagicBytes then .error .invalidFileFormat else
      readSegmentLeadInTail leadInBytes r
    else if magicBytes ≠ tdmsMagicBytes then .error .invalidFileFormat else
      readSegmentLeadInTail leadInBytes r

/-! ## Object-record parser (`tdms.go`, `readObject`) -/

/-- Parses the DAQmx scaler records from the buffer read in one go.  The
source slices `scalersBytes[i*16:(i+1)*16]` and then reads the scale id
from `scalerBytes[16:20]`, which reaches past the 16-byte window into the
backing array and, for the final scaler, past its capacity — a slice-bounds
panic whenever at least one scaler is present. -/
def parseScalers (order : ByteOrder) (scalersBytes : Bytes) :
    Nat → Nat → List DaqmxScaler → Except GoErr (List DaqmxScaler)
  | 0, _, acc => .ok acc.reverse
  | n + 1, i, acc =>
    if scalerSize * i + 20 > scalersBytes.length then
      .error (.panic .indexOutOfRange)
    else
      let base := scalersBytes.drop (scalerSize * i)
      let scaler : DaqmxScaler :=
        { dataType := order.uint32 base
          rawBufferIndex := order.uint32 (base.drop 4)
          rawByteOffsetWithinStride := order.uint32 (base.drop 8)
          sampleFormatBitmap := order.uint32 (base.drop 12)
          scaleID := order.uint32 (base.drop 16) }
      parseScalers order scalersBytes n (i + 1) (scaler :: acc)

/-- Parses `numWidths` 32-bit widths from the buffer read in one go. -/
def parseWidths (order : ByteOrder) (widthsBytes : Bytes) :
    Nat → Nat → List Nat → List Nat
  | 0, _, acc => acc.reverse
  | n + 1, i, acc =>
      parseWidths order widthsBytes n (i + 1) (order.uint32 (widthsBytes.drop (4 * i)) :: acc)

/-- Restricted result of the raw-index-header dispatch in `readObject`:
either the index pointer is already settled (nil or inherited), or a fresh
index with the given scaler type is to be read. -/
inductive IndexDispatch where
  | settled (index : Option Nat)
  | readFresh (scalerType : Nat)

/-- Reads the property list at the end of an object record. -/
def readProperties (order : ByteOrder) :
    Nat → Reader → List (Bytes × Property) → Except GoErr (List (Bytes × Property) × Reader)
  | 0, r, acc => .ok (acc, r)
  | n + 1, r, acc => do
    let (propName, r) ← readString r order
    let (propDataTypeInt, r) ← readUint32 r order
    let (value, r) ← readValue propDataTypeInt r order
    let prop : Property := { name := propName, typeCode := propDataTypeInt, value := value }
    readProperties order n r (mapInsert acc propName prop)

/-- Go `readObject` (`tdms.go`): reads one object record.  A
matches-previous header with no prior segment dereferences the nil
`prevSegment` pointer (a Go runtime panic); a matches-previous header whose
path is absent from the prior segment is a bare `errors.New`, not an
`ErrInvalidFileFormat`. -/
def readObject (leadIn : LeadIn) (prevSegment : Option Segment)
    (r : Reader) (store : List ObjectIndex) :
    Except GoErr (Obj × Reader × List ObjectIndex) := do
  let (path, r) ← readString r leadIn.byteOrder
  let (rawDataIndexHeader, r) ← readUint32 r leadIn.byteOrder
  let dispatch : Except GoErr IndexDispatch :=
    if rawDataIndexHeader = rawIndexHeaderNoRawData then
      .ok (.settled none)
    else if rawDataIndexHeader = rawIndexHeaderMatchesPreviousValue then
      match prevSegment with
      | none =>
        -- `prevSegment.metadata.objects[obj.path]` on a nil prevSegment
        .error (.panic .nilPointerDereference)
      | some ps =>
        match mapGet? ps.metadata.objects path with
        | some existingObj =>
          -- the pointer is reused without copying the record
          .ok (.settled existingObj.index)
        | none =>
          .error (.plainError
            "raw data index matches previous value but no prior object found")
    else if rawDataIndexHeader = rawIndexHeaderFormatChangingScaler then
      .ok (.readFresh 1)
    else if rawDataIndexHeader = rawIndexHeaderDigitalLineScaler then
      .ok (.readFresh 2)
    else
      -- any other value is the (historical) length of the normal index
      .ok (.readFresh 0)
  match ← dispatch with
  | .settled index => do
    let (numProps, r) ← readUint32 r leadIn.byteOrder
    let (properties, r) ← readProperties leadIn.byteOrder numProps r []
    .ok ({ path := path, index := index, properties := properties }, r, store)
  | .readFresh scalerType =>
    -- the normal index is always 16 bytes long, read at once
    let ((rawDataIndexBytes, _, rerr), r) := r.read 16
    match rerr with
    | some _ => .error .readFailed
    | none =>
      let dataType := leadIn.byteOrder.uint32 rawDataIndexBytes
      if dataType = DataTypeString ∧ leadIn.isInterleaved then
        -- interleaved segments are not allowed with variable-width data types
        .error .invalidFileFormat
      else
        let dimension := leadIn.byteOrder.uint32 (rawDataIndexBytes.drop 4)
        if dimension ≠ 1 then .error .invalidFileFormat
        else
          let numValues := leadIn.byteOrder.uint64 (rawDataIndexBytes.drop 8)
          let fill : Except GoErr (Nat × List DaqmxScaler × List Nat × Reader) :=
            if scalerType = 0 then
              if dataType = DataTypeString then do
                let (totalSize, r) ← readUint64 r leadIn.byteOrder
                .ok (totalSize, [], [], r)
              else
                .ok ((numValues * dataTypeSize dataType) % 2 ^ 64, [], [], r)
            else do
              let (numScalers, r) ← readUint32 r leadIn.byteOrder
              let ((scalersBytes, _, serr), r) := r.read (scalerSize * numScalers)
              match serr with
              | some _ => .error .readFailed
              | none => do
                let scalers ← parseScalers leadIn.byteOrder scalersBytes numScalers 0 []
                let (numWidths, r) ← readUint32 r leadIn.byteOrder
                let ((widthsBytes, _, werr), r) := r.read (4 * numWidths)
                match werr with
                | some _ => .error .readFailed
                | none =>
                  .ok (0, scalers, parseWidths leadIn.byteOrder widthsBytes numWidths 0 [], r)
          let (totalSize, scalers, widths, r) ← fill
          let idx : ObjectIndex :=
            { scalerType := scalerType, dataType := dataType, numValues := numValues
              totalSize := totalSize, scalers := scalers, widths := widths
              offset := 0, stride := 0 }
          let (numProps, r) ← readUint32 r leadIn.byteOrder
          let (properties, r) ← readProperties leadIn.byteOrder numProps r []
          .ok ({ path := path, index := some store.length, properties := properties },
               r, store ++ [idx])

/-! ## Segment metadata parser and reducer (`tdms.go`, `readSegmentMetadata`) -/

/-- Mutable state of the segment-metadata loop: the segment-local object
map and order, the byte source, the index store and the file-scoped root
object map (`t.objects`). -/
structure MetaState where
  objects : List (Bytes × Obj)
  objectOrder : List Bytes
  reader : Reader
  store : List ObjectIndex
  tObjects : List (Bytes × Obj)
deriving Repr

/-- The body of the object loop of `readSegmentMetadata`: reads one record
and merges it into the segment-local map and into the file-scoped map. -/
def readSegmentObjects (leadIn : LeadIn) (prevSegment : Option Segment) :
    Nat → MetaState → Except GoErr MetaState
  | 0, st => .ok st
  | n + 1, st => do
    let (obj, r, store) ← readObject leadIn prevSegment st.reader st.store
    -- merge into the segment-local map
    let (objects, objectOrder) :=
      match mapGet? st.objects obj.path with
      | some existingObj =>
        -- a record with no raw data keeps the raw data index from before
        let existingObj :=
          if obj.index.isSome then { existingObj with index := obj.index } else existingObj
        let existingObj :=
          { existingObj with properties := mapsCopy existingObj.properties obj.properties }
        (mapInsert st.objects obj.path existingObj, st.objectOrder)
      | none =>
        (mapInsert st.objects obj.path obj, st.objectOrder ++ [obj.path])
    -- merge into the file-scoped object map
    let tObjects :=
      match mapGet? st.tObjects obj.path with
      | some existingObj =>
        let existingObj :=
          if obj.index.isSome then { existingObj with index := obj.index } else existingObj
        let existingObj :=
          { existingObj with properties := mapsCopy existingObj.properties obj.properties }
        mapInsert st.tObjects obj.path existingObj
      | none =>
        -- deep copy of the property map on first insertion
        mapInsert st.tObjects obj.path
          { obj with properties := mapsCopy [] obj.properties }
    readSegmentObjects leadIn prevSegment n
      { objects := objects, objectOrder := objectOrder, reader := r,
        store := store, tObjects := tObjects }

/-- Go `readSegmentMetadata` (`tdms.go`): seeds the object list from the
previous segment when the new-object-list flag is unset, reads the object
records, derives chunk size and chunk count (an integer division that the
source performs without guarding against a zero chunk size), and assigns
per-object data offsets and strides by mutating the (possibly shared)
index records. -/
def readSegmentMetadata (size : Int) (segmentOffset : Int) (leadIn : LeadIn)
    (prevSegment : Option Segment) (r : Reader) (store : List ObjectIndex)
    (tObjects : List (Bytes × Obj)) :
    Except GoErr (Metadata × Reader × List ObjectIndex × List (Bytes × Obj)) := do
  let (numObjects, r) ← readUint32 r leadIn.byteOrder
  let seeded : Except GoErr (List (Bytes × Obj) × List Bytes) :=
    if ¬leadIn.newObjectList then
      match prevSegment with
      | none => .error .invalidFileFormat
      | some ps =>
        .ok (ps.metadata.objectOrder.foldl
          (fun acc p =>
            (mapInsert acc.1 p ((mapGet? ps.metadata.objects p).getD
              { path := p, index := none, properties := [] }),
             acc.2 ++ [p]))
          ([], []))
    else .ok ([], [])
  let (objects0, objectOrder0) ← seeded
  let st ← readSegmentObjects leadIn prevSegment numObjects
    { objects := objects0, objectOrder := objectOrder0, reader := r,
      store := store, tObjects := tObjects }
  -- chunk size: sum of the per-chunk sizes of the objects with an index
  let chunkSize := st.objects.foldl
    (fun acc p =>
      match p.2.index with
      | none => acc
      | some ptr => addU64 acc (st.store.getD ptr default).totalSize) 0
  let totalRawDataSize :=
    if leadIn.nextSegmentOffset = segmentIncomplete then
      let rawDataAbsolutePosition :=
        addU64 (addU64 (uint64OfInt segmentOffset) leadInSize) leadIn.rawDataOffset
      subU64 (uint64OfInt size) rawDataAbsolutePosition
    else
      subU64 leadIn.nextSegmentOffset leadIn.rawDataOffset
  -- `m.numChunks = totalRawDataSize / m.chunkSize`: Go integer division,
  -- which panics when the divisor is zero
  if chunkSize = 0 then .error (.panic .divideByZero)
  else
    let numChunks := totalRawDataSize / chunkSize
    -- assign data offsets and interleave strides, mutating the shared
    -- index records in the store
    let dataOffset0 := wrapI64 (segmentOffset + toInt64 (addU64 leadInSize leadIn.rawDataOffset))
    let store' := (st.objectOrder.foldl
      (fun acc path =>
        let obj := (mapGet? st.objects path).getD { path := path, index := none, properties := [] }
        match obj.index with
        | none => acc
        | some ptr =>
          let idx := acc.1.getD ptr default
          if idx.totalSize = 0 then acc
          else
            let idx' := { idx with
              offset := acc.2
              stride := toInt64 (subU64 chunkSize idx.totalSize) }
            (acc.1.set ptr idx', wrapI64 (acc.2 + toInt64 idx.totalSize)))
      (st.store, dataOffset0)).1
    .ok ({ objects := st.objects, objectOrder := st.objectOrder,
           numChunks := numChunks, chunkSize := chunkSize },
         st.reader, store', st.tObjects)

/-! ## File builder (`file.go`, `readMetadata` and `New`) -/

/-- State carried by the segment scan loop of `readMetadata`. -/
structure ScanState where
  reader : Reader
  store : List ObjectIndex
  tObjects : List (Bytes × Obj)
  segments : List Segment
  isIncomplete : Bool
deriving DecidableEq, Repr

/-- The segment scan loop of `readMetadata`: parses lead-ins and metadata
until the incomplete sentinel or the end of the file. -/
def scanSegments (isIndex : Bool) (size : Int) :
    Nat → Int → Option Segment → ScanState → Except GoErr ScanState
  | 0, _, _, _ => .error .outOfFuel
  | fuel + 1, currentOffset, prevSegment, st => do
    let (leadIn, r) ← readSegmentLeadIn isIndex st.reader
    let (prevSegment, st) ←
      if leadIn.containsMetadata then do
        let (metadata, r, store, tObjects) ←
          readSegmentMetadata size currentOffset leadIn prevSegment r st.store st.tObjects
        let seg : Segment := { offset := currentOffset, leadIn := leadIn, metadata := metadata }
        pure (some seg,
          { st with reader := r, store := store, tObjects := tObjects,
                    segments := st.segments ++ [seg] })
      else
        pure (prevSegment, { st with reader := r })
    -- the next segment offset is relative to the end of the lead-in
    let currentOffset := wrapI64 (currentOffset + toInt64 leadIn.nextSegmentOffset + (leadInSize : Int))
    if leadIn.nextSegmentOffset = segmentIncomplete then
      -- the writer crashed while writing the final segment
      .ok { st with isIncomplete := true }
    else if currentOffset ≥ size then
      .ok { st with isIncomplete := false }
    else if isIndex then
      scanSegments isIndex size fuel currentOffset prevSegment st
    else do
      let r ← st.reader.seekTo currentOffset
      scanSegments isIndex size fuel currentOffset prevSegment { st with reader := r }

/-- Precomputes the data chunks of the channel at `path` from the parsed
segments (the chunk-catalog loop of `readMetadata`). -/
def buildChunks (segments : List Segment) (store : List ObjectIndex) (path : Bytes) :
    List DataChunk :=
  segments.foldl
    (fun acc seg =>
      if ¬seg.leadIn.containsRawData then acc
      else
        match mapGet? seg.metadata.objects path with
        | none => acc
        | some obj =>
          match obj.index with
          | none => acc
          | some ptr =>
            let idx := store.getD ptr default
            acc ++ (List.range seg.metadata.numChunks).map (fun chunkIdx =>
              { offset := wrapI64 (idx.offset +
                  toInt64 ((chunkIdx * seg.metadata.chunkSize) % 2 ^ 64))
                isInterleaved := seg.leadIn.isInterleaved
                order := seg.leadIn.byteOrder
                size := idx.totalSize
                numValues := idx.numValues
                stride := idx.stride }))
    []

/-- Builds the `Channel` record for a channel object (the channel branch of
the projection loop in `readMetadata`): chunk catalog, cached total sample
count, and the data type read through the object's index pointer — a nil
dereference when the object never carried an index. -/
def buildChannel (segments : List Segment) (store : List ObjectIndex)
    (groupName channelName : Bytes) (obj : Obj) : Except GoErr Channel := do
  let chunks := buildChunks segments store obj.path
  let totalNumValues := chunks.foldl (fun acc c => addU64 acc c.numValues) 0
  match obj.index with
  | none => .error (.panic .nilPointerDereference)
  | some ptr =>
    .ok { name := channelName, groupName := groupName,
          dataType := (store.getD ptr default).dataType,
          properties := obj.properties, dataChunks := chunks,
          totalNumValues := totalNumValues }

/-- The object-projection loop of `readMetadata`: root properties, groups,
and a staging map of channels keyed by channel name. -/
def projectObjects (segments : List Segment) (store : List ObjectIndex) :
    List (Bytes × Obj) →
    List (Bytes × Property) × List (Bytes × Group) × List (Bytes × Channel) →
    Except GoErr (List (Bytes × Property) × List (Bytes × Group) × List (Bytes × Channel))
  | [], acc => .ok acc
  | (_, obj) :: rest, (fileProps, groups, channels) => do
    let (groupName, channelName) ← parsePath obj.path
    if groupName = [] then
      projectObjects segments store rest
        (mapsCopy fileProps obj.properties, groups, channels)
    else if channelName = [] then
      projectObjects segments store rest
        (fileProps,
         mapInsert groups groupName
           { name := groupName, channels := [], properties := obj.properties },
         channels)
    else do
      let ch ← buildChannel segments store groupName channelName obj
      projectObjects segments store rest
        (fileProps, groups, mapInsert channels channelName ch)

/-- The attachment loop of `readMetadata`: every staged channel is added to
its group; a channel whose group is absent is `ErrInvalidFileFormat`. -/
def attachChannels :
    List (Bytes × Channel) → List (Bytes × Group) → Except GoErr (List (Bytes × Group))
  | [], groups => .ok groups
  | (channelName, channel) :: rest, groups =>
    match mapGet? groups channel.groupName with
    | none => .error .invalidFileFormat
    | some g =>
      attachChannels rest
        (mapInsert groups channel.groupName
          { g with channels := mapInsert g.channels channelName channel })

/-- Go `New` (`file.go`): scans all segments, then projects the root object
map into the file's groups, channels and root properties.  The fuel bounds
the number of scan-loop iterations only. -/
def New (data : Bytes) (isIndex : Bool) (size : Int) (fuel : Nat) : Except GoErr File := do
  let st ← scanSegments isIndex size fuel 0 none
    { reader := { data := data, pos := 0 }, store := [], tObjects := [],
      segments := [], isIncomplete := false }
  let (fileProps, groups, channels) ← projectObjects st.segments st.store st.tObjects ([], [], [])
  let groups ← attachChannels channels groups
  .ok { groups := groups, properties := fileProps, isIncomplete := st.isIncomplete,
        data := data, size := size }

/-! ## Streaming reader (`stream_reader.go`)

`BatchStreamReader` is modelled as the finite list of the `yield` events of
the Go iterator: each event is a batch together with the error value passed
to `yield` (the Go code yields `nil` as the batch alongside an error and
then stops).  Go runtime panics inside the iterator are modelled as a final
error event carrying `GoErr.panic`. -/

/-- Go `ReadOption` (`channel.go`): the only option is `BatchSize`. -/
inductive ReadOption where
  | batchSizeOpt (n : Int)
deriving DecidableEq, Repr

/-- Go `BatchSize`. -/
def BatchSize (n : Int) : ReadOption := .batchSizeOpt n

/-- Go `uint32` subtraction with wrap-around. -/
def subU32 (a b : Nat) : Nat := (a % 2 ^ 32 + 2 ^ 32 - b % 2 ^ 32) % 2 ^ 32

/-- Overwrites `buf[start : start+len(src)]` with `src` (all call sites
stay within the buffer). -/
def writeAt (buf : Bytes) (start : Nat) (src : Bytes) : Bytes :=
  buf.take start ++ src ++ buf.drop (start + src.length)

/-- Fixed parameters of one streaming session. -/
structure StreamCfg (T : Type) where
  interpret : Bytes → ByteOrder → T
  dataType : Nat
  dataSize : Nat
  batchSize : Nat

/-- The interleaved read loop of `BatchStreamReader`: `for i := 0; i <
len(buf); i += dataSize`, seeking `stride` before every read but the first
and reading one value into `buf[i*dataSize : (i+1)*dataSize]` — note the
doubly-scaled write position taken from the source, which runs past the
buffer capacity (a Go slice-bounds panic) as soon as the batch holds more
than `batchSize/dataSize` values of width at least 2.  Errors (including
the panic and a plain `io.EOF`) are yielded by the caller. -/
def interleavedRead (stride : Int) (dataSize curLen : Nat) :
    Nat → Nat → Nat → Bytes → Reader → Except GoErr (Nat × Bytes × Reader)
  | 0, _, _, _, _ => .error .outOfFuel
  | fuel + 1, i, n, backing, r =>
    if i < curLen then do
      let r ← if 0 < i then r.seekCur stride else .ok r
      if (i + 1) * dataSize > backing.length then
        .error (.panic .indexOutOfRange)
      else
        let ((bs, k, rerr), r) := r.read dataSize
        match rerr with
        | some e => .error e
        | none =>
          interleavedRead stride dataSize curLen fuel (i + dataSize) (n + k)
            (writeAt backing (i * dataSize) (bs.take k)) r
    else
      .ok (n, backing, r)

/-- The per-batch decode loop of `BatchStreamReader`: value `i` of the
batch is decoded from `buf[i*dataSize : (i+1)*dataSize]`, or, for strings,
from the window given by the offsets table. -/
def decodeBatch {T : Type} (interpret : Bytes → ByteOrder → T) (order : ByteOrder)
    (dataType dataSize : Nat) (strOffsets : List Nat) (backing : Bytes) :
    Nat → Nat → List T → Except GoErr (List T)
  | 0, _, acc => .ok acc.reverse
  | n + 1, i, acc =>
    let startIdx := if dataType = DataTypeString then strOffsets.getD i 0 else i * dataSize
    let endIdx :=
      if dataType = DataTypeString then strOffsets.getD (i + 1) 0 else (i + 1) * dataSize
    if endIdx > backing.length ∨ startIdx > endIdx then
      .error (.panic .indexOutOfRange)
    else
      decodeBatch interpret order dataType dataSize strOffsets backing n (i + 1)
        (interpret ((backing.drop startIdx).take (endIdx - startIdx)) order :: acc)

/-- Result of the per-chunk batch loop: either the stream returned (after
yielding the accumulated events), or the chunk is exhausted and the next
chunk continues with the reader and the (reused) buffer. -/
inductive LoopOut (T : Type) where
  | halt (evs : List (List T × Option GoErr))
  | next (evs : List (List T × Option GoErr)) (r : Reader) (backing : Bytes) (bufLen : Nat)

/-- The batch loop of `BatchStreamReader` for one chunk: reads up to
`batchSize` values per iteration (contiguous via `io.ReadFull`, interleaved
via `interleavedRead`), treats `io.EOF`/`io.ErrUnexpectedEOF` as the end of
the chunk, decodes and yields the batch. -/
def chunkInnerLoop {T : Type} (cfg : StreamCfg T) (chunk : DataChunk)
    (strOffsets : List Nat) :
    Nat → Reader → Bytes → Nat → Nat → Nat →
    List (List T × Option GoErr) → LoopOut T
  | 0, _, _, _, _, _, evAcc => .halt (evAcc ++ [([], some .outOfFuel)])
  | fuel + 1, r, backing, bufLen, bytesRead, valuesProcessed, evAcc =>
    -- we do not want to read past the end of the chunk
    let bytesLeft := subU64 chunk.size bytesRead
    if bytesLeft = 0 then .next evAcc r backing bufLen
    else
      -- for strings, size the batch buffer from the offsets table
      let grown :=
        if cfg.dataType = DataTypeString then
          let numValuesLeft := chunk.numValues - valuesProcessed
          let requiredNumValues := min cfg.batchSize numValuesLeft
          let requiredBufLen := (List.range requiredNumValues).foldl
            (fun acc j =>
              (acc + subU32 (strOffsets.getD (valuesProcessed + j + 1) 0)
                (strOffsets.getD (valuesProcessed + j) 0)) % 2 ^ 32) 0
          if backing.length < requiredBufLen then
            (List.replicate requiredBufLen 0, requiredBufLen)
          else (backing, requiredBufLen)
        else (backing, bufLen)
      let backing := grown.1
      let bufLen := grown.2
      let curLen := if bufLen > bytesLeft then bytesLeft else bufLen
      let readRes : Except GoErr (Nat × Bytes × Reader × Option GoErr) :=
        if ¬chunk.isInterleaved then
          let ((bs, n, rerr), r) := r.readFull curLen
          .ok (n, writeAt backing 0 (bs.take n), r, rerr)
        else if cfg.dataSize = 0 then
          -- interleaved data chunks cannot contain variable-length types
          .error .invalidFileFormat
        else
          match interleavedRead chunk.stride cfg.dataSize curLen (curLen + 1) 0 0 backing r with
          | .error e => .error e
          | .ok (n, backing, r) => .ok (n, backing, r, none)
      match readRes with
      | .error e => .halt (evAcc ++ [([], some e)])
      | .ok (n, backing, r, rerr) =>
        let bytesRead := addU64 bytesRead n
        if rerr = some .eof ∨ rerr = some .unexpectedEof then
          -- the end of the chunk was reached
          .next evAcc r backing bufLen
        else
          match rerr with
          | some e => .halt (evAcc ++ [([], some e)])
          | none =>
            let numValuesRead := min cfg.batchSize (chunk.numValues - valuesProcessed)
            match decodeBatch cfg.interpret chunk.order cfg.dataType cfg.dataSize
                strOffsets backing numValuesRead 0 [] with
            | .error e => .halt (evAcc ++ [([], some e)])
            | .ok batch =>
              chunkInnerLoop cfg chunk strOffsets fuel r backing bufLen bytesRead
                (valuesProcessed + numValuesRead) (evAcc ++ [(batch, none)])

/-- The chunk loop of `BatchStreamReader`: seeks to each chunk, reads the
string-offsets table when the type is variable-width, and runs the batch
loop; the scratch buffer is reused across chunks. -/
def runChunks {T : Type} (cfg : StreamCfg T) (fuel : Nat) :
    List DataChunk → Reader → Bytes → Nat →
    List (List T × Option GoErr) → List (List T × Option GoErr)
  | [], _, _, _, evAcc => evAcc
  | chunk :: rest, r, backing, bufLen, evAcc =>
    match r.seekTo chunk.offset with
    | .error e => evAcc ++ [([], some e)]
    | .ok r =>
      -- special case for strings: the value end-offsets sit at the start
      -- of the chunk
      let tableRes : Except GoErr (List Nat × Nat × Reader) :=
        if cfg.dataType = DataTypeString then
          let ((bs, n, rerr), r) := r.read (chunk.numValues * 4)
          match rerr with
          | some e => .error e
          | none =>
            .ok (0 :: (List.range chunk.numValues).map
              (fun i => chunk.order.uint32 (bs.drop (i * 4))), n, r)
        else .ok ([0], 0, r)
      match tableRes with
      | .error e => evAcc ++ [([], some e)]
      | .ok (strOffsets, bytesRead0, r) =>
        match chunkInnerLoop cfg chunk strOffsets fuel r backing bufLen bytesRead0 0 [] with
        | .halt evs => evAcc ++ evs
        | .next evs r backing bufLen =>
          runChunks cfg fuel rest r backing bufLen (evAcc ++ evs)

/-- Go `BatchStreamReader` (`stream_reader.go`): the list of yields of the
batch iterator for the given channel.  The default batch size is 2056, or
256 for strings; the batch size is clamped to the channel's total value
count.  The fuel bounds the per-chunk batch loop only. -/
def BatchStreamReader {T : Type} (interpret : Bytes → ByteOrder → T) (f : File)
    (ch : Channel) (options : List ReadOption) (dataType : Nat) (fuel : Nat) :
    List (List T × Option GoErr) :=
  let optsBatchSize := options.foldl (fun _ o => match o with | .batchSizeOpt n => n) 0
  let optsBatchSize :=
    if optsBatchSize = 0 then
      if dataType = DataTypeString then 256 else 2056
    else optsBatchSize
  let batchSize : Int := min optsBatchSize (toInt64 ch.totalNumValues)
  let dataSize := dataTypeSize dataType
  if batchSize < 0 then
    -- `make([]byte, batchSize*dataSize)` with a negative length panics
    [([], some (.panic .indexOutOfRange))]
  else
    let batchSizeN := batchSize.toNat
    let backing := List.replicate (batchSizeN * dataSize) 0
    runChunks
      { interpret := interpret, dataType := dataType, dataSize := dataSize,
        batchSize := batchSizeN }
      fuel ch.dataChunks { data := f.data, pos := 0 } backing backing.length []

/-- The collection loop of `readAllData`: appends every batch, or returns
`(nil, err)` on the first yielded error. -/
def collectAll {T : Type} : List (List T × Option GoErr) → List T → Except GoErr (List T)
  | [], acc => .ok acc
  | (batch, none) :: rest, acc => collectAll rest (acc ++ batch)
  | (_, some e) :: _, _ => .error e

/-- Go `readAllData` (`stream_reader.go`): folds the batch stream into a
single slice; any yielded error aborts with `(nil, err)`. -/
def readAllData {T : Type} (interpret : Bytes → ByteOrder → T) (f : File)
    (ch : Channel) (options : List ReadOption) (dataType : Nat) (fuel : Nat) :
    Except GoErr (List T) :=
  collectAll (BatchStreamReader interpret f ch options dataType fuel) []

/-- Go `Channel.ReadDataInt16All`. -/
def ReadDataInt16All (f : File) (ch : Channel) (options : List ReadOption) (fuel : Nat) :
    Except GoErr (List Int) :=
  readAllData interpretInt16 f ch options DataTypeInt16 fuel

/-- Go `Channel.ReadDataInt32All`. -/
def ReadDataInt32All (f : File) (ch : Channel) (options : List ReadOption) (fuel : Nat) :
    Except GoErr (List Int) :=
  readAllData interpretInt32 f ch options DataTypeInt32 fuel

/-- Looks a channel up through the file's group map. -/
def lookupChannel (f : File) (groupName channelName : Bytes) : Option Channel :=
  match mapGet? f.groups groupName with
  | none => none
  | some g => mapGet? g.channels channelName

/-! ## Concrete TDMS byte files for the end-to-end claims -/

/-- Little-endian encoding of a 32-bit value. -/
def le32 (n : Nat) : Bytes := [n % 256, n / 256 % 256, n / 2 ^ 16 % 256, n / 2 ^ 24 % 256]

/-- Little-endian encoding of a 64-bit value. -/
def le64 (n : Nat) : Bytes := le32 (n % 2 ^ 32) ++ le32 (n / 2 ^ 32)

/-- The bytes of an ASCII string literal. -/
def bstr (s : String) : Bytes := s.toList.map Char.toNat

/-- Length-prefixed string as written in a little-endian TDMS file. -/
def goStr (s : String) : Bytes := le32 (bstr s).length ++ bstr s

/-- Little-endian two's-complement encoding of an `int16` value. -/
def i16le (v : Int) : Bytes :=
  let u := uint64OfInt v % 2 ^ 16
  [u % 256, u / 256]

/-- Little-endian two's-complement encoding of an `int32` value. -/
def i32le (v : Int) : Bytes := le32 (uint64OfInt v % 2 ^ 32)

/-- The 28-byte lead-in of a little-endian data segment. -/
def mkLeadIn (toc nso rdo : Nat) : Bytes :=
  tdmsMagicBytes ++ le32 toc ++ le32 4713 ++ le64 nso ++ le64 rdo

/-- A normal (non-DAQmx) raw index for a fixed-width type: historical
length header, type, dimension 1, sample count. -/
def mkRawIndex (dataType numValues : Nat) : Bytes :=
  le32 20 ++ le32 dataType ++ le32 1 ++ le64 numValues

/-- An object record carrying no raw data and no properties. -/
def mkBareObject (path : String) : Bytes :=
  goStr path ++ le32 rawIndexHeaderNoRawData ++ le32 0

/-- An object record with a fixed-width raw index and no properties. -/
def mkDataObject (path : String) (dataType numValues : Nat) : Bytes :=
  goStr path ++ mkRawIndex dataType numValues ++ le32 0

/-- C1 scenario: one interleaved little-endian segment with two Int16
channels of three samples each; payload values `[1,4,2,5,3,6]`. -/
def c1meta : Bytes :=
  le32 3 ++ mkBareObject "/'G'" ++
  mkDataObject "/'G'/'Ch1'" DataTypeInt16 3 ++
  mkDataObject "/'G'/'Ch2'" DataTypeInt16 3

def c1bytes : Bytes :=
  mkLeadIn (2 + 4 + 8 + 32) (c1meta.length + 12) c1meta.length ++ c1meta ++
  ([1, 4, 2, 5, 3, 6] : List Int).flatMap i16le

/-- C2 scenario: two little-endian Int32 segments of 50 samples each, the
second with the new-object-list flag unset and an empty object list. -/
def c2meta1 : Bytes :=
  le32 2 ++ mkBareObject "/'G'" ++ mkDataObject "/'G'/'C'" DataTypeInt32 50

def c2seg1 : Bytes :=
  mkLeadIn (2 + 4 + 8) (c2meta1.length + 200) c2meta1.length ++ c2meta1 ++
  ((List.range 50).map (fun n => (n : Int))).flatMap i32le

def c2seg2 : Bytes :=
  mkLeadIn (2 + 8) 204 4 ++ le32 0 ++
  ((List.range 50).map (fun n => ((n + 50 : Nat) : Int))).flatMap i32le

def c2bytes : Bytes := c2seg1 ++ c2seg2

/-- C3 scenario: a single metadata-only segment whose lone object carries
no raw index, so the segment chunk size is zero. -/
def c3meta : Bytes := le32 1 ++ mkBareObject "/"

def c3bytes : Bytes := mkLeadIn (2 + 4) c3meta.length c3meta.length ++ c3meta

/-- C4 scenario: a single Int32 segment declaring 100 samples, truncated
20 bytes before the end of the sample data (lead-in unchanged). -/
def c4meta : Bytes :=
  le32 2 ++ mkBareObject "/'G'" ++ mkDataObject "/'G'/'C'" DataTypeInt32 100

def c4bytes : Bytes :=
  mkLeadIn (2 + 4 + 8) (c4meta.length + 400) c4meta.length ++ c4meta ++
  ((List.range 95).map (fun n => (n : Int))).flatMap i32le

/-- C7 scenario (a): the very first segment holds an object whose raw-index
header is the matches-previous sentinel. -/
def c7meta : Bytes := le32 1 ++ goStr "/'G'/'C'" ++ le32 0

def c7bytes : Bytes := mkLeadIn (2 + 4) c7meta.length c7meta.length ++ c7meta

/-- C7 scenario (b): a prior segment exists but has no object at the path
that claims a matches-previous index. -/
def c7meta1 : Bytes := le32 1 ++ mkDataObject "/'G'/'D'" DataTypeInt32 1

def c7meta2 : Bytes := le32 1 ++ goStr "/'G'/'C'" ++ le32 0

def c7bytesB : Bytes :=
  mkLeadIn (2 + 4 + 8) (c7meta1.length + 4) c7meta1.length ++ c7meta1 ++ i32le 0 ++
  mkLeadIn (2 + 4) c7meta2.length c7meta2.length ++ c7meta2

/-- C8 scenario: a single Int32 segment of 10 declared samples whose
`next_segment_offset` is the incomplete sentinel; the file physically holds
80 bytes of sample data (two chunks' worth). -/
def c8meta : Bytes :=
  le32 2 ++ mkBareObject "/'G'" ++ mkDataObject "/'G'/'C'" DataTypeInt32 10

def c8bytes : Bytes :=
  mkLeadIn (2 + 4 + 8) segmentIncomplete c8meta.length ++ c8meta ++
  ((List.range 20).map (fun n => (n : Int))).flatMap i32le

/-! ## Parsed artifacts of the concrete files

Each scan state and each parsed file is spelled out as a literal value;
theorems below prove that the segment scan and `New` produce exactly these
values on the byte files above.  Splitting the pipeline at the scan state
keeps every later computation (projection, lookup, streaming) on fully
evaluated data. -/

deriving instance DecidableEq for Except

/-- The scan state after scanning the single interleaved C1 segment. -/
def c1scan : ScanState :=
  { reader := { data := c1bytes, pos := 124 },
    store := [{ scalerType := 0, dataType := 2, numValues := 3, totalSize := 6,
                scalers := [], widths := [], offset := 124, stride := 6 },
              { scalerType := 0, dataType := 2, numValues := 3, totalSize := 6,
                scalers := [], widths := [], offset := 130, stride := 6 }],
    tObjects :=
      [([47, 39, 71, 39],
        { path := [47, 39, 71, 39], index := none, properties := [] }),
       ([47, 39, 71, 39, 47, 39, 67, 104, 49, 39],
        { path := [47, 39, 71, 39, 47, 39, 67, 104, 49, 39], index := some 0, properties := [] }),
       ([47, 39, 71, 39, 47, 39, 67, 104, 50, 39],
        { path := [47, 39, 71, 39, 47, 39, 67, 104, 50, 39], index := some 1, properties := [] })],
    segments :=
      [{ offset := 0,
         leadIn := { containsMetadata := true, containsRawData := true,
                     containsDAQMXRawData := false, isInterleaved := true,
                     byteOrder := .little, newObjectList := true,
                     nextSegmentOffset := 108, rawDataOffset := 96 },
         metadata :=
           { objects :=
               [([47, 39, 71, 39],
                 { path := [47, 39, 71, 39], index := none, properties := [] }),
                ([47, 39, 71, 39, 47, 39, 67, 104, 49, 39],
                 { path := [47, 39, 71, 39, 47, 39, 67, 104, 49, 39],
                   index := some 0, properties := [] }),
                ([47, 39, 71, 39, 47, 39, 67, 104, 50, 39],
                 { path := [47, 39, 71, 39, 47, 39, 67, 104, 50, 39],
                   index := some 1, properties := [] })],
             objectOrder := [[47, 39, 71, 39],
                             [47, 39, 71, 39, 47, 39, 67, 104, 49, 39],
                             [47, 39, 71, 39, 47, 39, 67, 104, 50, 39]],
             numChunks := 1, chunkSize := 12 } }],
    isIncomplete := false }

/-- Channel `Ch1` of the parsed C1 file: its single interleaved chunk
starts at the segment data position with the full row as its stride. -/
def c1chan1 : Channel :=
  { name := [67, 104, 49], groupName := [71], dataType := 2, properties := [],
    dataChunks := [{ offset := 124, isInterleaved := true, order := .little,
                     size := 6, numValues := 3, stride := 6 }],
    totalNumValues := 3 }

/-- Channel `Ch2` of the parsed C1 file. -/
def c1chan2 : Channel :=
  { name := [67, 104, 50], groupName := [71], dataType := 2, properties := [],
    dataChunks := [{ offset := 130, isInterleaved := true, order := .little,
                     size := 6, numValues := 3, stride := 6 }],
    totalNumValues := 3 }

/-- The parsed C1 file. -/
def c1file : File :=
  { groups := [([71], { name := [71],
                        channels := [([67, 104, 49], c1chan1), ([67, 104, 50], c1chan2)],
                        properties := [] })],
    properties := [], isIncomplete := false, data := c1bytes, size := 136 }

/-- The scan state after scanning both C2 segments: the single shared
object-index record keeps only the second segment's data offset `316`. -/
def c2scan : ScanState :=
  { reader := { data := c2bytes, pos := 316 },
    store := [{ scalerType := 0, dataType := 3, numValues := 50, totalSize := 200,
                scalers := [], widths := [], offset := 316, stride := 0 }],
    tObjects :=
      [([47, 39, 71, 39],
        { path := [47, 39, 71, 39], index := none, properties := [] }),
       ([47, 39, 71, 39, 47, 39, 67, 39],
        { path := [47, 39, 71, 39, 47, 39, 67, 39], index := some 0, properties := [] })],
    segments :=
      [{ offset := 0,
         leadIn := { containsMetadata := true, containsRawData := true,
                     containsDAQMXRawData := false, isInterleaved := false,
                     byteOrder := .little, newObjectList := true,
                     nextSegmentOffset := 256, rawDataOffset := 56 },
         metadata :=
           { objects :=
               [([47, 39, 71, 39],
                 { path := [47, 39, 71, 39], index := none, properties := [] }),
                ([47, 39, 71, 39, 47, 39, 67, 39],
                 { path := [47, 39, 71, 39, 47, 39, 67, 39], index := some 0, properties := [] })],
             objectOrder := [[47, 39, 71, 39], [47, 39, 71, 39, 47, 39, 67, 39]],
             numChunks := 1, chunkSize := 200 } },
       { offset := 284,
         leadIn := { containsMetadata := true, containsRawData := true,
                     containsDAQMXRawData := false, isInterleaved := false,
                     byteOrder := .little, newObjectList := false,
                     nextSegmentOffset := 204, rawDataOffset := 4 },
         metadata :=
           { objects :=
               [([47, 39, 71, 39],
                 { path := [47, 39, 71, 39], index := none, properties := [] }),
                ([47, 39, 71, 39, 47, 39, 67, 39],
                 { path := [47, 39, 71, 39, 47, 39, 67, 39], index := some 0, properties := [] })],
             objectOrder := [[47, 39, 71, 39], [47, 39, 71, 39, 47, 39, 67, 39]],
             numChunks := 1, chunkSize := 200 } }],
    isIncomplete := false }

/-- The single channel of the parsed C2 file: both precomputed chunks carry
the clobbered offset `316` — the second segment's data position. -/
def c2chan : Channel :=
  { name := [67], groupName := [71], dataType := 3, properties := [],
    dataChunks := [{ offset := 316, isInterleaved := false, order := .little,
                     size := 200, numValues := 50, stride := 0 },
                   { offset := 316, isInterleaved := false, order := .little,
                     size := 200, numValues := 50, stride := 0 }],
    totalNumValues := 100 }

/-- The parsed C2 file. -/
def c2file : File :=
  { groups := [([71], { name := [71], channels := [([67], c2chan)], properties := [] })],
    properties := [], isIncomplete := false, data := c2bytes, size := 516 }

/-- The 50 samples `[50..99]` of the second C2 segment. -/
def c2secondHalf : List Int := (List.range 50).map (fun n => ((n + 50 : Nat) : Int))

/-- The scan state after scanning the truncated C4 segment: the declared
next segment offset points past the end of the file, yet the scan ends with
`isIncomplete := false`. -/
def c4scan : ScanState :=
  { reader := { data := c4bytes, pos := 84 },
    store := [{ scalerType := 0, dataType := 3, numValues := 100, totalSize := 400,
                scalers := [], widths := [], offset := 84, stride := 0 }],
    tObjects :=
      [([47, 39, 71, 39],
        { path := [47, 39, 71, 39], index := none, properties := [] }),
       ([47, 39, 71, 39, 47, 39, 67, 39],
        { path := [47, 39, 71, 39, 47, 39, 67, 39], index := some 0, properties := [] })],
    segments :=
      [{ offset := 0,
         leadIn := { containsMetadata := true, containsRawData := true,
                     containsDAQMXRawData := false, isInterleaved := false,
                     byteOrder := .little, newObjectList := true,
                     nextSegmentOffset := 456, rawDataOffset := 56 },
         metadata :=
           { objects :=
               [([47, 39, 71, 39],
                 { path := [47, 39, 71, 39], index := none, properties := [] }),
                ([47, 39, 71, 39, 47, 39, 67, 39],
                 { path := [47, 39, 71, 39, 47, 39, 67, 39], index := some 0, properties := [] })],
             objectOrder := [[47, 39, 71, 39], [47, 39, 71, 39, 47, 39, 67, 39]],
             numChunks := 1, chunkSize := 400 } }],
    isIncomplete := false }

/-- The single channel of the parsed C4 file: 100 declared samples even
though only 95 are physically present. -/
def c4chan : Channel :=
  { name := [67], groupName := [71], dataType := 3, properties := [],
    dataChunks := [{ offset := 84, isInterleaved := false, order := .little,
                     size := 400, numValues := 100, stride := 0 }],
    totalNumValues := 100 }

/-- The parsed C4 file: `isIncomplete` is `false` despite the truncation. -/
def c4file : File :=
  { groups := [([71], { name := [71], channels := [([67], c4chan)], properties := [] })],
    properties := [], isIncomplete := false, data := c4bytes, size := 464 }

/-- The scan state after scanning the C8 segment: the incomplete sentinel
stops the scan with `isIncomplete := true`, and the chunk count `2` is
derived from the physical file size. -/
def c8scan : ScanState :=
  { reader := { data := c8bytes, pos := 84 },
    store := [{ scalerType := 0, dataType := 3, numValues := 10, totalSize := 40,
                scalers := [], widths := [], offset := 84, stride := 0 }],
    tObjects :=
      [([47, 39, 71, 39],
        { path := [47, 39, 71, 39], index := none, properties := [] }),
       ([47, 39, 71, 39, 47, 39, 67, 39],
        { path := [47, 39, 71, 39, 47, 39, 67, 39], index := some 0, properties := [] })],
    segments :=
      [{ offset := 0,
         leadIn := { containsMetadata := true, containsRawData := true,
                     containsDAQMXRawData := false, isInterleaved := false,
                     byteOrder := .little, newObjectList := true,
                     nextSegmentOffset := 18446744073709551615, rawDataOffset := 56 },
         metadata :=
           { objects :=
               [([47, 39, 71, 39],
                 { path := [47, 39, 71, 39], index := none, properties := [] }),
                ([47, 39, 71, 39, 47, 39, 67, 39],
                 { path := [47, 39, 71, 39, 47, 39, 67, 39], index := some 0, properties := [] })],
             objectOrder := [[47, 39, 71, 39], [47, 39, 71, 39, 47, 39, 67, 39]],
             numChunks := 2, chunkSize := 40 } }],
    isIncomplete := true }

/-- The single channel of the parsed C8 file: two chunks of 10 samples. -/
def c8chan : Channel :=
  { name := [67], groupName := [71], dataType := 3, properties := [],
    dataChunks := [{ offset := 84, isInterleaved := false, order := .little,
                     size := 40, numValues := 10, stride := 0 },
                   { offset := 124, isInterleaved := false, order := .little,
                     size := 40, numValues := 10, stride := 0 }],
    totalNumValues := 20 }

/-- The single group of the parsed C8 file. -/
def c8group : Group :=
  { name := [71], channels := [([67], c8chan)], properties := [] }

/-- The parsed C8 file: `isIncomplete` is `true`. -/
def c8file : File :=
  { groups := [([71], c8group)],
    properties := [], isIncomplete := true, data := c8bytes, size := 164 }

/-! ## Claim theorems -/

/-- The C1 segment scan produces exactly the recorded literal state. -/
theorem c1scan_eq : scanSegments false (c1bytes.length : Int) 8 0 none
    { reader := { data := c1bytes, pos := 0 }, store := [], tObjects := [],
      segments := [], isIncomplete := false } = .ok c1scan := by
  decide

/-- Go `New` on the C1 bytes produces exactly the recorded literal file. -/
theorem c1New_eq : New c1bytes false (c1bytes.length : Int) 8 = .ok c1file := by
  unfold New
  rw [c1scan_eq]
  decide

/-- The C2 segment scan produces exactly the recorded literal state. -/
theorem c2scan_eq : scanSegments false (c2bytes.length : Int) 8 0 none
    { reader := { data := c2bytes, pos := 0 }, store := [], tObjects := [],
      segments := [], isIncomplete := false } = .ok c2scan := by
  decide

/-- Go `New` on the C2 bytes produces exactly the recorded literal file. -/
theorem c2New_eq : New c2bytes false (c2bytes.length : Int) 8 = .ok c2file := by
  unfold New
  rw [c2scan_eq]
  decide

/-- The C4 segment scan produces exactly the recorded literal state. -/
theorem c4scan_eq : scanSegments false (c4bytes.length : Int) 8 0 none
    { reader := { data := c4bytes, pos := 0 }, store := [], tObjects := [],
      segments := [], isIncomplete := false } = .ok c4scan := by
  decide

/-- Go `New` on the C4 bytes produces exactly the recorded literal file. -/
theorem c4New_eq : New c4bytes false (c4bytes.length : Int) 8 = .ok c4file := by
  unfold New
  rw [c4scan_eq]
  decide

/-- The C8 segment scan produces exactly the recorded literal state. -/
theorem c8scan_eq : scanSegments false (c8bytes.length : Int) 8 0 none
    { reader := { data := c8bytes, pos := 0 }, store := [], tObjects := [],
      segments := [], isIncomplete := false } = .ok c8scan := by
  decide

/-- Go `New` on the C8 bytes produces exactly the recorded literal file. -/
theorem c8New_eq : New c8bytes false (c8bytes.length : Int) 8 = .ok c8file := by
  unfold New
  rw [c8scan_eq]
  decide

/-- Claim C1: the spec says that for an interleaved segment with two Int16
channels of three samples each over payload `[1,4,2,5,3,6]`, streaming Ch1
yields `[1,2,3]` and Ch2 yields `[4,5,6]`.  On the code, the file parses
and the channels are projected, but streaming Ch1 hits the doubly-scaled
buffer write `buf[i*dataSize:(i+1)*dataSize]` of the interleaved loop and
panics with a slice-bounds violation instead of yielding `[1,2,3]`; Ch2,
whose first-sample offset and stride are computed as if the layout were
contiguous, runs off the end of the file and reports `io.EOF` instead of
yielding `[4,5,6]`. -/
theorem c1_interleaved_read_panics :
    New c1bytes false (c1bytes.length : Int) 8 = .ok c1file ∧
    lookupChannel c1file (bstr "G") (bstr "Ch1") = some c1chan1 ∧
    lookupChannel c1file (bstr "G") (bstr "Ch2") = some c1chan2 ∧
    ReadDataInt16All c1file c1chan1 [] 16 = .error (.panic .indexOutOfRange) ∧
    ReadDataInt16All c1file c1chan2 [] 16 = .error .eof :=
  ⟨c1New_eq, by decide, by decide, by decide, by decide⟩

/-- Claim C2: the spec says two Int32 segments of 50 samples each, the
second with the new-object-list flag unset, project one channel with 100
samples whose data reads back as `[0..99]`.  On the code, the second
segment's seeded object shares the first segment's `*objectIndex` pointer,
and the offset-assignment loop of `readSegmentMetadata` overwrites the
shared record's `offset` with the second segment's data position; both
precomputed chunks therefore point at the second segment's data and reading
returns `[50..99] ++ [50..99]`, not `[0..99]`. -/
theorem c2_second_segment_clobbers_first_offset :
    New c2bytes false (c2bytes.length : Int) 8 = .ok c2file ∧
    lookupChannel c2file (bstr "G") (bstr "C") = some c2chan ∧
    c2chan.NumValues = 100 ∧
    ReadDataInt32All c2file c2chan [] 16 = .ok (c2secondHalf ++ c2secondHalf) ∧
    c2secondHalf ++ c2secondHalf ≠ (List.range 100).map (fun n => (n : Int)) :=
  ⟨c2New_eq, by decide, by decide, by decide, by decide⟩

/-- Claim C3: the spec says `num_chunks` is the integer quotient of the
raw-data size by the chunk size and is zero when the chunk size is zero, so
a metadata-bearing segment without any non-null index parses.  The code
divides `totalRawDataSize / m.chunkSize` unguarded, so such a segment makes
`New` panic with an integer division by zero. -/
theorem c3_zero_chunk_size_divide_by_zero :
    New c3bytes false (c3bytes.length : Int) 8 = .error (.panic .divideByZero) := by
  decide

/-- Claim C4 counterexample: the claim says that opening the truncated
single-segment Int32 file reports `IsIncomplete == true` and that streaming
yields every physically present sample.  On the code the open succeeds but
`IsIncomplete` is `false` (the truncated file has no incomplete sentinel,
and the scan loop sets `incomplete = false` when the next offset passes the
end of the file), and streaming with the default batch size yields no
samples at all: the single 400-byte batch read ends in
`io.ErrUnexpectedEOF`, which discards the partially filled batch. -/
theorem c4_truncated_file_counterexample :
    New c4bytes false (c4bytes.length : Int) 8 = .ok c4file ∧
    c4file.isIncomplete = false ∧
    lookupChannel c4file (bstr "G") (bstr "C") = some c4chan ∧
    ReadDataInt32All c4file c4chan [] 16 = .ok [] :=
  ⟨c4New_eq, by decide, by decide, by decide⟩

/-- Claim C4 as amended: opening the truncated file succeeds with
`IsIncomplete == false`, the channel is projected with its declared 100
samples, and streaming ends without an error after yielding exactly the
complete batches that fit before the truncation point — none with the
default batch size, and the first 90 samples with a batch size of 10. -/
theorem c4_truncated_file_amended :
    New c4bytes false (c4bytes.length : Int) 8 = .ok c4file ∧
    c4file.isIncomplete = false ∧
    lookupChannel c4file (bstr "G") (bstr "C") = some c4chan ∧
    c4chan.NumValues = 100 ∧
    ReadDataInt32All c4file c4chan [] 16 = .ok [] ∧
    ReadDataInt32All c4file c4chan [BatchSize 10] 16 =
      .ok ((List.range 90).map (fun n => (n : Int))) :=
  ⟨c4New_eq, by decide, by decide, by decide, by decide, by decide⟩

/-- Claim C5: the spec says the quad-precision decode returns +0 for
sixteen zero bytes in either byte order (which holds) and returns exactly 1
for the big-endian pattern `3F FF 00 … 00` and its little-endian reversal.
`interpretFloat128` normalises the bytes to little-endian storage, but
`AsBigFloat` reads byte 0 as the most significant byte; the pattern for 1
therefore decodes in both byte orders to the subnormal
`65343 / 2^16494`, not to 1. -/
theorem c5_float128_decode_wrong_endianness :
    asBigFloat (interpretFloat128 (List.replicate 16 0) .little) = some (.finite 0) ∧
    asBigFloat (interpretFloat128 (List.replicate 16 0) .big) = some (.finite 0) ∧
    asBigFloat (interpretFloat128 ([0x3F, 0xFF] ++ List.replicate 14 0) .big) =
      some (.finite ((65343 : ℚ) / 2 ^ 16494)) ∧
    asBigFloat (interpretFloat128 (List.replicate 14 0 ++ [0xFF, 0x3F]) .little) =
      some (.finite ((65343 : ℚ) / 2 ^ 16494)) ∧
    ((65343 : ℚ) / 2 ^ 16494) ≠ 1 := by
  have hb : interpretFloat128 ([0x3F, 0xFF] ++ List.replicate 14 0) .big =
      List.replicate 14 0 ++ [0xFF, 0x3F] := by decide
  have hl : interpretFloat128 (List.replicate 14 0 ++ [0xFF, 0x3F]) .little =
      List.replicate 14 0 ++ [0xFF, 0x3F] := by decide
  have key : asBigFloat (List.replicate 14 0 ++ [0xFF, 0x3F]) =
      some (.finite ((65343 : ℚ) / 2 ^ 16494)) := by
    simp only [asBigFloat]
    rw [if_neg (by decide), if_pos (by decide), if_neg (by decide), if_neg (by decide)]
    rw [show mantissaToBigInt ((((List.replicate 14 0 ++ [0xFF, 0x3F] : Bytes)).drop 2).take 14 ++
        List.replicate (14 - (((List.replicate 14 0 ++ [0xFF, 0x3F] : Bytes)).drop 2).length) 0) =
        65343 from by decide]
    norm_num
  exact ⟨by decide, by decide, by rw [hb, key], by rw [hl, key], by norm_num⟩

/-- Claim C6 counterexample: the claim says `parsePath` returns an
`InvalidPath` error on an unterminated quote; on the code, the input
`/'G` runs the component loop off the end of the string, an index
out-of-range panic rather than the `InvalidPath` error. -/
theorem c6_unterminated_quote_counterexample :
    parsePath (bstr "/'G") = .error (.panic .indexOutOfRange) ∧
    GoErr.panic .indexOutOfRange ≠ GoErr.invalidPath := by
  decide

/-- Claim C6 as amended: `parsePath` maps `/` to `("","")`, `/'G'` to
`("G","")`, `/'G'/'C'` to `("G","C")` and decodes a doubled quote
(`/'It''s'/'C'` gives group `It's`); an input whose first byte is not `/`,
or whose component does not open with a quote, is an `InvalidPath` error;
but an unterminated quote panics with an index out of range instead of
returning `InvalidPath`, and inputs with a trailing slash or more than two
components are accepted, the components beyond the second ignored. -/
theorem c6_parsePath_amended :
    parsePath (bstr "/") = .ok ([], []) ∧
    parsePath (bstr "/'G'") = .ok (bstr "G", []) ∧
    parsePath (bstr "/'G'/'C'") = .ok (bstr "G", bstr "C") ∧
    parsePath (bstr "/'It''s'/'C'") = .ok (bstr "It's", bstr "C") ∧
    (∀ (c : Nat) (rest : Bytes), c ≠ slashByte →
      parsePath (c :: rest) = .error .invalidPath) ∧
    (∀ (c : Nat) (rest : Bytes), c ≠ quoteByte → c ≠ 0 →
      parsePath (slashByte :: c :: rest) = .error .invalidPath) ∧
    parsePath (bstr "/'G") = .error (.panic .indexOutOfRange) ∧
    parsePath (bstr "/'G'/") = .ok (bstr "G", []) ∧
    parsePath (bstr "/'A'/'B'/'C'") = .ok (bstr "A", bstr "B") := by
  refine ⟨by decide, by decide, by decide, by decide, ?_, ?_, by decide, by decide, by decide⟩
  · intro c rest hc
    simp [parsePath, parsePathLoop, hc]
  · intro c rest hq hn
    simp [parsePath, parsePathLoop, hq, hn]

/-- Claim C6 amended witness: the universally quantified conjuncts applied
at the concrete inputs `"G"` (missing the leading slash) and `"/G"`
(unquoted component). -/
theorem c6_parsePath_amended_witness :
    ((71 : Nat) ≠ slashByte ∧ parsePath [71] = .error .invalidPath) ∧
    ((71 : Nat) ≠ quoteByte ∧ (71 : Nat) ≠ 0 ∧
      parsePath [slashByte, 71] = .error .invalidPath) :=
  ⟨⟨by decide,
    c6_parsePath_amended.2.2.2.2.1 71 [] (by decide)⟩,
   ⟨by decide, by decide,
    c6_parsePath_amended.2.2.2.2.2.1 71 [] (by decide) (by decide)⟩⟩

/-- Claim C7: the spec says that a matches-previous raw-index header with
no prior segment holding an index for the path fails with an
`InvalidFileFormat` error.  On the code, when the record sits in the very
first segment, `readObject` dereferences the nil `prevSegment` pointer and
panics; and when a prior segment exists but lacks the path, the function
returns a bare `errors.New` message that is not marked
`ErrInvalidFileFormat`. -/
theorem c7_matches_previous_no_prior :
    New c7bytes false (c7bytes.length : Int) 8 = .error (.panic .nilPointerDereference) ∧
    New c7bytesB false (c7bytesB.length : Int) 8 =
      .error (.plainError "raw data index matches previous value but no prior object found") ∧
    GoErr.plainError "raw data index matches previous value but no prior object found" ≠
      GoErr.invalidFileFormat := by
  decide

/-- Claim C8: a file whose last segment's `next_segment_offset` is the
sentinel `0xFFFF_FFFF_FFFF_FFFF` parses successfully with
`IsIncomplete == true`, and the segment's raw-data size is derived from the
file size: the C8 file declares 10 samples per chunk but physically holds
80 bytes, and the reader derives two chunks from the file size, so the
channel totals 20 samples and reads back `[0..19]`. -/
theorem c8_incomplete_sentinel_parses :
    New c8bytes false (c8bytes.length : Int) 8 = .ok c8file ∧
    c8file.isIncomplete = true ∧
    mapGet? c8file.groups (bstr "G") = some c8group ∧
    mapGet? c8group.channels (bstr "C") = some c8chan ∧
    c8chan.NumValues = 20 ∧
    ReadDataInt32All c8file c8chan [] 16 = .ok ((List.range 20).map (fun n => (n : Int))) :=
  ⟨c8New_eq, by decide, by decide, by decide, by decide, by decide⟩

/-! ## Claim C9: the channel total is the sum of its chunk counts -/

/-- The invariant claimed by C9, with the sum taken in `uint64` arithmetic
exactly as `readMetadata` computes it. -/
def NumValuesInv (ch : Channel) : Prop :=
  ch.NumValues = (ch.dataChunks.map (fun d => d.numValues)).foldl addU64 0

/-- A successful map lookup is a member of the association list. -/
theorem mapGet?_mem {α : Type} {m : List (Bytes × α)} {k : Bytes} {v : α}
    (h : mapGet? m k = some v) : (k, v) ∈ m := by
  unfold mapGet? at h
  cases hf : m.find? (fun p => p.1 = k) with
  | none => rw [hf] at h; simp at h
  | some p =>
    rw [hf] at h
    obtain ⟨a, b⟩ := p
    simp only [Option.map_some'] at h
    have hmem := List.mem_of_find?_eq_some hf
    have hak := List.find?_some hf
    simp at hak h
    subst hak; subst h
    exact hmem

/-- Membership after a map insertion: the entry was already present or is
the inserted one. -/
theorem mapInsert_mem {α : Type} {m : List (Bytes × α)} {k0 : Bytes} {v0 : α}
    {e : Bytes × α} (h : e ∈ mapInsert m k0 v0) : e ∈ m ∨ e = (k0, v0) := by
  unfold mapInsert at h
  split at h
  · obtain ⟨p, hp, hpe⟩ := List.mem_map.mp h
    by_cases hpk : p.1 = k0
    · right; rw [if_pos hpk] at hpe; exact hpe.symm
    · left; rw [if_neg hpk] at hpe; rwa [hpe] at hp
  · rcases List.mem_append.mp h with h1 | h1
    · exact Or.inl h1
    · right; simpa using h1

/-- Binding a failed `Except` computation propagates the error. -/
theorem error_bind {α β : Type} (e : GoErr) (f : α → Except GoErr β) :
    (Except.error e >>= f) = Except.error e := rfl

/-- Binding a successful `Except` computation applies the continuation. -/
theorem ok_bind {α β : Type} (a : α) (f : α → Except GoErr β) :
    (Except.ok a >>= f) = f a := rfl

/-- Every channel built by `buildChannel` satisfies the C9 invariant: its
cached `totalNumValues` is the fold of its chunks' sample counts. -/
theorem buildChannel_numValues {segments : List Segment} {store : List ObjectIndex}
    {g c : Bytes} {obj : Obj} {ch : Channel}
    (h : buildChannel segments store g c obj = .ok ch) : NumValuesInv ch := by
  unfold buildChannel at h
  cases hidx : obj.index with
  | none => rw [hidx] at h; simp at h
  | some ptr =>
    rw [hidx] at h
    simp only [Except.ok.injEq] at h
    subst h
    simp [NumValuesInv, Channel.NumValues, List.foldl_map]

/-- The projection loop preserves the C9 invariant for the staged channels
and for the channels of the groups (which are created empty). -/
theorem projectObjects_inv {segments : List Segment} {store : List ObjectIndex} :
    ∀ (objs : List (Bytes × Obj))
      (acc out : List (Bytes × Property) × List (Bytes × Group) × List (Bytes × Channel)),
      projectObjects segments store objs acc = .ok out →
      (∀ cp ∈ acc.2.2, NumValuesInv cp.2) →
      (∀ gp ∈ acc.2.1, ∀ cp ∈ gp.2.channels, NumValuesInv cp.2) →
      (∀ cp ∈ out.2.2, NumValuesInv cp.2) ∧
      (∀ gp ∈ out.2.1, ∀ cp ∈ gp.2.channels, NumValuesInv cp.2) := by
  intro objs
  induction objs with
  | nil =>
    intro acc out h hch hgr
    simp only [projectObjects, Except.ok.injEq] at h
    subst h
    exact ⟨hch, hgr⟩
  | cons entry rest ih =>
    intro acc out h hch hgr
    obtain ⟨fileProps, groups, channels⟩ := acc
    obtain ⟨kk, obj⟩ := entry
    simp only [projectObjects] at h
    cases hp : parsePath obj.path with
    | error e => rw [hp, error_bind] at h; simp at h
    | ok gc =>
      obtain ⟨g, c⟩ := gc
      rw [hp] at h
      simp only [ok_bind] at h
      split at h
      · exact ih _ _ h hch hgr
      · split at h
        · refine ih _ _ h hch ?_
          intro gp hgp cp hcp
          rcases mapInsert_mem hgp with hin | heq
          · exact hgr gp hin cp hcp
          · subst heq; simp at hcp
        · cases hb : buildChannel segments store g c obj with
          | error e => rw [hb, error_bind] at h; simp at h
          | ok ch =>
            rw [hb] at h
            simp only [ok_bind] at h
            refine ih _ _ h ?_ hgr
            intro cp hcp
            rcases mapInsert_mem hcp with hin | heq
            · exact hch cp hin
            · subst heq; exact buildChannel_numValues hb

/-- The attachment loop preserves the C9 invariant for every channel of
every group. -/
theorem attachChannels_inv :
    ∀ (channels : List (Bytes × Channel)) (groups out : List (Bytes × Group)),
      attachChannels channels groups = .ok out →
      (∀ cp ∈ channels, NumValuesInv cp.2) →
      (∀ gp ∈ groups, ∀ cp ∈ gp.2.channels, NumValuesInv cp.2) →
      (∀ gp ∈ out, ∀ cp ∈ gp.2.channels, NumValuesInv cp.2) := by
  intro channels
  induction channels with
  | nil =>
    intro groups out h _ hgr
    simp only [attachChannels, Except.ok.injEq] at h
    subst h
    exact hgr
  | cons entry rest ih =>
    intro groups out h hch hgr
    obtain ⟨cn, ch⟩ := entry
    simp only [attachChannels] at h
    cases hg : mapGet? groups ch.groupName with
    | none => rw [hg] at h; simp at h
    | some g =>
      rw [hg] at h
      refine ih _ _ h (fun cp hcp => hch cp (List.mem_cons_of_mem _ hcp)) ?_
      intro gp hgp cp hcp
      rcases mapInsert_mem hgp with hin | heq
      · exact hgr gp hin cp hcp
      · subst heq
        rcases mapInsert_mem hcp with hin2 | heq2
        · exact hgr _ (mapGet?_mem hg) cp hin2
        · subst heq2; exact hch _ (List.mem_cons_self _ _)

/-- Claim C9: for every successfully parsed file and every channel in it,
`Channel.NumValues` equals the sum (in the `uint64` arithmetic the source
uses) of the per-chunk sample counts over the channel's precomputed data
chunks. -/
theorem c9_numValues_eq_sum_chunks
    (data : Bytes) (isIndex : Bool) (size : Int) (fuel : Nat) (f : File)
    (gname cname : Bytes) (g : Group) (ch : Channel)
    (hf : New data isIndex size fuel = .ok f)
    (hg : mapGet? f.groups gname = some g)
    (hc : mapGet? g.channels cname = some ch) :
    ch.NumValues = (ch.dataChunks.map (fun d => d.numValues)).foldl addU64 0 := by
  unfold New at hf
  cases hs : scanSegments isIndex size fuel 0 none
      { reader := { data := data, pos := 0 }, store := [], tObjects := [],
        segments := [], isIncomplete := false } with
  | error e => rw [hs, error_bind] at hf; simp at hf
  | ok st =>
    rw [hs] at hf
    simp only [ok_bind] at hf
    cases hpj : projectObjects st.segments st.store st.tObjects ([], [], []) with
    | error e => rw [hpj, error_bind] at hf; simp at hf
    | ok acc =>
      rw [hpj] at hf
      simp only [ok_bind] at hf
      cases hat : attachChannels acc.2.2 acc.2.1 with
      | error e => rw [hat, error_bind] at hf; simp at hf
      | ok gs =>
        rw [hat] at hf
        simp only [ok_bind, Except.ok.injEq] at hf
        have hinv := projectObjects_inv st.tObjects ([], [], []) acc hpj
          (by intro cp hcp; simp at hcp) (by intro gp hgp; simp at hgp)
        have hout := attachChannels_inv acc.2.2 acc.2.1 gs hat hinv.1 hinv.2
        have hgs : f.groups = gs := by rw [← hf]
        have hgm : (gname, g) ∈ gs := by rw [← hgs]; exact mapGet?_mem hg
        exact hout (gname, g) hgm (cname, ch) (mapGet?_mem hc)

/-- Claim C9 witness: the theorem applied to the parsed C8 file and its
only channel. -/
theorem c9_numValues_eq_sum_chunks_witness :
    New c8bytes false (c8bytes.length : Int) 8 = .ok c8file ∧
    mapGet? c8file.groups (bstr "G") = some c8group ∧
    mapGet? c8group.channels (bstr "C") = some c8chan ∧
    c8chan.NumValues = (c8chan.dataChunks.map (fun d => d.numValues)).foldl addU64 0 :=
  ⟨c8New_eq, by decide, by decide,
   c9_numValues_eq_sum_chunks c8bytes false (c8bytes.length : Int) 8 c8file (bstr "G") (bstr "C")
     c8group c8chan c8New_eq (by decide) (by decide)⟩

/-! ## Claim C10: `readAllData` is the fold of the batch stream -/

/-- The collection fold of `readAllData` returns the first yielded error
(with no values), or the concatenation of all batches when no error was
yielded. -/
theorem collectAll_spec {T : Type} (evs : List (List T × Option GoErr)) (acc : List T) :
    collectAll evs acc =
      match evs.findSome? (fun ev => ev.2) with
      | some e => .error e
      | none => .ok (acc ++ (evs.map (fun ev => ev.1)).join) := by
  induction evs generalizing acc with
  | nil => simp [collectAll]
  | cons ev rest ih =>
    obtain ⟨batch, err⟩ := ev
    cases err with
    | none => simp [collectAll, List.findSome?_cons, ih, List.append_assoc]
    | some e => simp [collectAll, List.findSome?_cons]

/-- Claim C10: for every channel and every option list, `readAllData`
either returns the concatenation of all batches `BatchStreamReader` yields
(with no error), or fails with the first error the stream yields and no
values; it never returns partially read samples alongside an error.  (Go
runtime panics inside the stream are modelled as yielded errors.) -/
theorem c10_readAllData_spec {T : Type} (interpret : Bytes → ByteOrder → T) (f : File)
    (ch : Channel) (options : List ReadOption) (dataType : Nat) (fuel : Nat) :
    readAllData interpret f ch options dataType fuel =
      match (BatchStreamReader interpret f ch options dataType fuel).findSome?
          (fun ev => ev.2) with
      | some e => .error e
      | none =>
        .ok ((BatchStreamReader interpret f ch options dataType fuel).map
          (fun ev => ev.1)).join := by
  rw [readAllData, collectAll_spec]
  simp

end GoTdms
